import Mathlib

/-!
Honda generator PGM-FI data-link interface (`src/pgmfi_dlc.cpp`)

A shallow embedding of `Pgmfi_Dlc`: the serial frame reassembler (`loop`), the
character-hex to binary conversion and dispatch (`recieve_message`), the
outbound path (`send_message`, `query`) and the single-slot result store
(`available`, `data`).

Bytes are natural numbers below 256.  Text is a list of character codes.
-/

namespace DLC

/-! ## C library routines used by the conversion loops -/

/-- The C `isspace` test in the "C" locale: space, and the controls `\t \n \v \f \r`. -/
def isspace (c : Nat) : Bool := c == 32 || (9 ≤ c && c ≤ 13)

/-- Value of a hexadecimal digit character (`0-9`, `A-F`, `a-f`), if it is one. -/
def hexval (c : Nat) : Option Nat :=
  if 48 ≤ c ∧ c ≤ 57 then some (c - 48)
  else if 65 ≤ c ∧ c ≤ 70 then some (c - 55)
  else if 97 ≤ c ∧ c ≤ 102 then some (c - 87)
  else none

/-- The uppercase hexadecimal digit character for a nibble, as `%X` prints it. -/
def hexchar (d : Nat) : Nat := if d < 10 then 48 + d else 55 + d

/-- The C string found at a pointer: the bytes of memory up to the first NUL.
Memory past the end of the modelled region is taken to end the string. -/
def cstr : List Nat → List Nat
  | [] => []
  | c :: cs => if c = 0 then [] else c :: cstr cs

/-- Leading white space is skipped by every `scanf` conversion except `%c %[ %n`. -/
def skip_space : List Nat → List Nat
  | [] => []
  | c :: cs => if isspace c then skip_space cs else c :: cs

/-- The `%2hhX` conversion on input with white space already skipped: at most two
characters are consumed, forming an optional sign, an optional `0x` and
hexadecimal digits; the value is stored as an `unsigned char`.  `none` means
nothing is assigned (end of input, or no digit where one is needed).  A lone
`0x` that uses up the field width is taken as `0`, as newlib and glibc do. -/
def scan_2hhX : List Nat → Option Nat
  | [] => none
  | c1 :: cs =>
    if c1 = 43 then                      -- '+' then one digit
      match cs with
      | [] => none
      | c2 :: _ => hexval c2
    else if c1 = 45 then                 -- '-' then one digit, negated modulo 256
      match cs with
      | [] => none
      | c2 :: _ => (hexval c2).map (fun d => (256 - d) % 256)
    else
      match hexval c1 with
      | none => none
      | some d1 =>
        match cs with
        | [] => some d1
        | c2 :: _ =>
          match hexval c2 with
          | some d2 => some (16 * d1 + d2)
          | none => some d1

/-- Effect of `sscanf(msg_ptr, "%2hhX", &out)` on `out`: `some v` when `v` is
stored, `none` when `out` is left as it was.  `mem` is the memory from `msg_ptr`
onwards. -/
def sscanf_2hhX (mem : List Nat) : Option Nat := scan_2hhX (skip_space (cstr mem))

/-- Text written by `sprintf(p, "%02X", b)` for a `uint8_t` argument: two uppercase
hexadecimal digits, high nibble first. -/
def sprintf_02X (b : Nat) : List Nat := [hexchar (b % 256 / 16), hexchar (b % 16)]

/-! ## Conversion loops -/

/-- The conversion loop of `recieve_message` (`for i < binary_len`): element `i` of
`binary_msg` receives what `sscanf` stores, or keeps the indeterminate initial
content `stack i` of the local array when nothing is stored; then `msg_ptr += 2`. -/
def hex_loop (stack : Nat → Nat) : Nat → Nat → List Nat → List Nat
  | 0, _, _ => []
  | n + 1, i, msg_ptr =>
    (match sscanf_2hhX msg_ptr with
      | some v => v
      | none => stack i) :: hex_loop stack n (i + 1) (msg_ptr.drop 2)

/-- The array `binary_msg` after the conversion loop of `recieve_message`. -/
def hex_to_binary (stack : Nat → Nat) (msg : List Nat) (len : Nat) : List Nat :=
  hex_loop stack (len / 2) 0 msg

/-- The conversion loop of `send_message`: two characters per byte, in order. -/
def hex_encode : List Nat → List Nat
  | [] => []
  | b :: bs => sprintf_02X b ++ hex_encode bs

/-! ## Declarations of `pgmfi_dlc.h` -/

/-- Modelled from the spec: the enumeration `QueryType` is declared in `pgmfi_dlc.h`,
which is not among the sources; the spec gives it as a closed enumeration of four
message kinds.  The `default` branches of the switches over it are then dead. -/
inductive QueryType where
  | T_ECU_Info1
  | T_ECU_Info2
  | T_INV_Master
  | T_INV_Slave
  deriving DecidableEq

/-- Modelled from the spec: the constants of `pgmfi_dlc.h` that the code refers to.
`type_tag` is the integer value of each enumerator (`msg[1] = type`). -/
structure Header where
  VT_MSG_START : Nat
  VT_MSG_END : Nat
  QUERY_START : Nat
  type_tag : QueryType → Nat

/-- Modelled from the spec: the static routines of `PGMFI_Decoder`, which are not
among the sources.  `decode_msg_type` returns `some t` when the C++ routine returns
`true` having written `t` to its reference argument, else `none`.  Each `decode`
overload receives the record it writes through its reference, and returns the
success flag and the record as it leaves it (also on failure). -/
structure PGMFI_Decoder (R1 R2 RM RS : Type) where
  decode_msg_type : List Nat → Option QueryType
  decode_ecu_info1 : List Nat → R1 → Bool × R1
  decode_ecu_info2 : List Nat → R2 → Bool × R2
  decode_inv_master : List Nat → RM → Bool × RM
  decode_inv_slave : List Nat → RS → Bool × RS

/-- The data members of `Pgmfi_Dlc` that the pipeline uses.  `rx_buffer` is a fixed
array; its capacity is the length of the list.  The record types `ECU_Info1`,
`ECU_Info2`, `Inverter_Master`, `Inverter_Slave` are parameters. -/
structure Pgmfi_Dlc (R1 R2 RM RS : Type) where
  rx_buffer : List Nat
  rx_index : Nat
  msg_available : Bool
  msg_available_type : QueryType
  ecu_info1 : R1
  ecu_info2 : R2
  inv_master : RM
  inv_slave : RS

/-- The object as the constructor leaves it: `rx_index(0), msg_available(false)`;
the other members hold whatever they held (`buf`, `t0` and the four records). -/
def Pgmfi_Dlc.init {R1 R2 RM RS : Type} (buf : List Nat) (t0 : QueryType)
    (r1 : R1) (r2 : R2) (rm : RM) (rs : RS) : Pgmfi_Dlc R1 R2 RM RS :=
  { rx_buffer := buf, rx_index := 0, msg_available := false, msg_available_type := t0,
    ecu_info1 := r1, ecu_info2 := r2, inv_master := rm, inv_slave := rs }

/-- Which `return` of `recieve_message` was taken, with the array handed to the
classifier when it was reached. -/
inductive RxExit where
  | odd_length
  | not_classified (binary_msg : List Nat)
  | decode_failed (binary_msg : List Nat) (query_type : QueryType)
  | recorded (binary_msg : List Nat) (query_type : QueryType)
  deriving DecidableEq

/-- True when `decode_msg_type` was called. -/
def RxExit.classifier_called : RxExit → Bool
  | .odd_length => false
  | _ => true

/-- The array `binary_msg` that `decode_msg_type` was called with, if it was. -/
def RxExit.payload : RxExit → Option (List Nat)
  | .odd_length => none
  | .not_classified binary_msg => some binary_msg
  | .decode_failed binary_msg _ => some binary_msg
  | .recorded binary_msg _ => some binary_msg

/-- True when one of the type-specific `decode` overloads was called. -/
def RxExit.decoder_called : RxExit → Bool
  | .decode_failed _ _ => true
  | .recorded _ _ => true
  | _ => false

section Pipeline

variable {R1 R2 RM RS : Type}

/-- The `switch` of `recieve_message`: the decode overload of the classified type
writes into the matching member; the result is `success` and the object. -/
def decode_switch (D : PGMFI_Decoder R1 R2 RM RS) (s : Pgmfi_Dlc R1 R2 RM RS)
    (binary_msg : List Nat) : QueryType → Bool × Pgmfi_Dlc R1 R2 RM RS
  | .T_ECU_Info1 =>
    let r := D.decode_ecu_info1 binary_msg s.ecu_info1
    (r.1, { s with ecu_info1 := r.2 })
  | .T_ECU_Info2 =>
    let r := D.decode_ecu_info2 binary_msg s.ecu_info2
    (r.1, { s with ecu_info2 := r.2 })
  | .T_INV_Master =>
    let r := D.decode_inv_master binary_msg s.inv_master
    (r.1, { s with inv_master := r.2 })
  | .T_INV_Slave =>
    let r := D.decode_inv_slave binary_msg s.inv_slave
    (r.1, { s with inv_slave := r.2 })

/-- `Pgmfi_Dlc::recieve_message(msg, len)`.  `msg` is the memory from the pointer
onwards, `stack` the indeterminate initial content of the local `binary_msg`.
The debug output on `Serial` is not modelled. -/
def recieve_message (D : PGMFI_Decoder R1 R2 RM RS) (stack : Nat → Nat)
    (s : Pgmfi_Dlc R1 R2 RM RS) (msg : List Nat) (len : Nat) :
    Pgmfi_Dlc R1 R2 RM RS × RxExit :=
  if len % 2 ≠ 0 then (s, .odd_length)
  else
    let binary_msg := hex_to_binary stack msg len
    match D.decode_msg_type binary_msg with
    | none => (s, .not_classified binary_msg)
    | some query_type =>
      let r := decode_switch D s binary_msg query_type
      if r.1 = false then (r.2, .decode_failed binary_msg query_type)
      else
        ({ r.2 with msg_available_type := query_type, msg_available := true },
          .recorded binary_msg query_type)

/-- One call of `recieve_message` as seen from `loop`: the frame `msg[0..len)` and
the exit taken. -/
structure RxCall where
  frame : List Nat
  taken : RxExit
  deriving DecidableEq

/-- What a call of `loop` leaves behind: the object, the bytes still waiting in
`Serial1`, and the calls of `recieve_message` it made, in order. -/
structure LoopExit (R1 R2 RM RS : Type) where
  dlc : Pgmfi_Dlc R1 R2 RM RS
  serial1 : List Nat
  calls : List RxCall

/-- The `while (true)` of `Pgmfi_Dlc::loop`, on the queue of bytes that `Serial1`
holds.  `none` is a write past the end of `rx_buffer`. -/
def loop_while (H : Header) (D : PGMFI_Decoder R1 R2 RM RS) (stack : Nat → Nat) :
    List Nat → Pgmfi_Dlc R1 R2 RM RS → Option (LoopExit R1 R2 RM RS)
  | [], s => some { dlc := s, serial1 := [], calls := [] }
  | current_byte :: rest, s =>
    let byte := current_byte % 256
    if byte = H.VT_MSG_START then
      some { dlc := { s with rx_index := 0 }, serial1 := rest, calls := [] }
    else if byte = H.VT_MSG_END then
      let r := recieve_message D stack s s.rx_buffer s.rx_index
      (loop_while H D stack rest r.1).map fun e =>
        { e with calls := { frame := s.rx_buffer.take s.rx_index, taken := r.2 } :: e.calls }
    else if s.rx_index < s.rx_buffer.length then
      loop_while H D stack rest
        { s with rx_buffer := s.rx_buffer.set s.rx_index byte, rx_index := s.rx_index + 1 }
    else none

/-- `Pgmfi_Dlc::loop()`: nothing is done when `Serial1.available()` is zero. -/
def loop (H : Header) (D : PGMFI_Decoder R1 R2 RM RS) (stack : Nat → Nat)
    (serial1 : List Nat) (s : Pgmfi_Dlc R1 R2 RM RS) : Option (LoopExit R1 R2 RM RS) :=
  if serial1.length = 0 then some { dlc := s, serial1 := serial1, calls := [] }
  else loop_while H D stack serial1 s

/-- The sketch's main loop calling `loop()` again and again on a queue that
receives nothing more, at most `n` times, until `Serial1` is empty. -/
def feed (H : Header) (D : PGMFI_Decoder R1 R2 RM RS) (stack : Nat → Nat) :
    Nat → List Nat → Pgmfi_Dlc R1 R2 RM RS → Option (LoopExit R1 R2 RM RS)
  | 0, serial1, s => some { dlc := s, serial1 := serial1, calls := [] }
  | n + 1, serial1, s =>
    if serial1.length = 0 then some { dlc := s, serial1 := serial1, calls := [] }
    else
      match loop H D stack serial1 s with
      | none => none
      | some e =>
        (feed H D stack n e.serial1 e.dlc).map fun e2 =>
          { e2 with calls := e.calls ++ e2.calls }

/-- `Pgmfi_Dlc::available(type)`. -/
def available (s : Pgmfi_Dlc R1 R2 RM RS) (type : QueryType) : Bool :=
  if s.msg_available && decide (s.msg_available_type = type) then true else false

/-- `Pgmfi_Dlc::available(type)` as a call on the object: the value returned and the
object afterwards.  Neither branch assigns a member. -/
def available_call (s : Pgmfi_Dlc R1 R2 RM RS) (type : QueryType) :
    Bool × Pgmfi_Dlc R1 R2 RM RS :=
  if s.msg_available && decide (s.msg_available_type = type) then (true, s) else (false, s)

/-- `Pgmfi_Dlc::data(ECU_Info1 &ecu)`: the flag returned, the object and `ecu`. -/
def data_ecu_info1 (s : Pgmfi_Dlc R1 R2 RM RS) (ecu : R1) :
    Bool × Pgmfi_Dlc R1 R2 RM RS × R1 :=
  if !(s.msg_available && decide (s.msg_available_type = .T_ECU_Info1)) then (false, s, ecu)
  else (true, { s with msg_available := false }, s.ecu_info1)

/-- `Pgmfi_Dlc::data(ECU_Info2 &ecu)`. -/
def data_ecu_info2 (s : Pgmfi_Dlc R1 R2 RM RS) (ecu : R2) :
    Bool × Pgmfi_Dlc R1 R2 RM RS × R2 :=
  if !(s.msg_available && decide (s.msg_available_type = .T_ECU_Info2)) then (false, s, ecu)
  else (true, { s with msg_available := false }, s.ecu_info2)

/-- `Pgmfi_Dlc::data(Inverter_Master &inv)`. -/
def data_inv_master (s : Pgmfi_Dlc R1 R2 RM RS) (inv : RM) :
    Bool × Pgmfi_Dlc R1 R2 RM RS × RM :=
  if !(s.msg_available && decide (s.msg_available_type = .T_INV_Master)) then (false, s, inv)
  else (true, { s with msg_available := false }, s.inv_master)

/-- `Pgmfi_Dlc::data(Inverter_Slave &inv)`. -/
def data_inv_slave (s : Pgmfi_Dlc R1 R2 RM RS) (inv : RS) :
    Bool × Pgmfi_Dlc R1 R2 RM RS × RS :=
  if !(s.msg_available && decide (s.msg_available_type = .T_INV_Slave)) then (false, s, inv)
  else (true, { s with msg_available := false }, s.inv_slave)

/-- The four caller-side records that the `data` overloads write to. -/
structure Outputs (R1 R2 RM RS : Type) where
  ecu1 : R1
  ecu2 : R2
  master : RM
  slave : RS

/-- The `data` overload selected by the type of the caller's record, indexed by the
`QueryType` it serves: the flag returned, the object and the caller's records. -/
def data (s : Pgmfi_Dlc R1 R2 RM RS) (o : Outputs R1 R2 RM RS) :
    QueryType → Bool × Pgmfi_Dlc R1 R2 RM RS × Outputs R1 R2 RM RS
  | .T_ECU_Info1 =>
    let r := data_ecu_info1 s o.ecu1
    (r.1, r.2.1, { o with ecu1 := r.2.2 })
  | .T_ECU_Info2 =>
    let r := data_ecu_info2 s o.ecu2
    (r.1, r.2.1, { o with ecu2 := r.2.2 })
  | .T_INV_Master =>
    let r := data_inv_master s o.master
    (r.1, r.2.1, { o with master := r.2.2 })
  | .T_INV_Slave =>
    let r := data_inv_slave s o.slave
    (r.1, r.2.1, { o with slave := r.2.2 })

/-- `Pgmfi_Dlc::send_message(msg, len)` with `msg` the `len` bytes pointed to: the
bytes that `Serial1.write(tx_buff)` puts on the line, that is the C string held in
`tx_buff` (start sentinel, hex text, end sentinel, NUL). -/
def send_message (H : Header) (msg : List Nat) : List Nat :=
  cstr ([H.VT_MSG_START % 256] ++ hex_encode msg ++ [H.VT_MSG_END % 256, 0])

/-- The local array `msg` of `Pgmfi_Dlc::query(type)` when `send_message` is called.
`QUERY_SIZE` is 4, the number of elements the routine assigns. -/
def query_msg (H : Header) (type : QueryType) : List Nat :=
  [H.QUERY_START % 256, H.type_tag type % 256, 0,
    match type with
    | .T_ECU_Info1 => 1
    | .T_ECU_Info2 => 2
    | .T_INV_Master => 0
    | .T_INV_Slave => 3]

/-- `Pgmfi_Dlc::query(type)`: the bytes written to `Serial1`. -/
def query (H : Header) (type : QueryType) : List Nat :=
  send_message H (query_msg H type)

/-- The `else` branch of `loop`: `rx_buffer[rx_index] = byte; rx_index += 1`. -/
def store_byte (s : Pgmfi_Dlc R1 R2 RM RS) (byte : Nat) : Pgmfi_Dlc R1 R2 RM RS :=
  { s with rx_buffer := s.rx_buffer.set s.rx_index byte, rx_index := s.rx_index + 1 }

/-- The `else` branch of `loop` taken for each byte of `w` in turn. -/
def store_bytes (s : Pgmfi_Dlc R1 R2 RM RS) (w : List Nat) : Pgmfi_Dlc R1 R2 RM RS :=
  w.foldl store_byte s

end Pipeline

/-! ## The doc comment of `recieve_message` -/

/-- The example message of the doc comment, as the text received between the
sentinels. -/
def example_text : List Nat :=
  "CB00000018096F8300602F010301F200067E0B".toList.map Char.toNat

/-- The example message of the doc comment "in hex":
`0xCB 0x00 0x00 0x00 0x18 0x09 0x6F 0x83 0x00 0x60 0x2F 0x01 0x03 0x01 0xF2 0x00 0x06 0x7E 0x0B`. -/
def example_message : List Nat :=
  [0xCB, 0x00, 0x00, 0x00, 0x18, 0x09, 0x6F, 0x83, 0x00, 0x60, 0x2F, 0x01, 0x03, 0x01,
    0xF2, 0x00, 0x06, 0x7E, 0x0B]

/-- The routine `calculate_checksum` given in the doc comment: the exclusive or of
`bytes_list[:-1]`, every element except the last. -/
def calculate_checksum (bytes_list : List Nat) : Nat :=
  bytes_list.dropLast.foldl (fun xor b => xor ^^^ b) 0

/-! ## Sample values used to evaluate the code on concrete inputs -/

/-- A header with the sentinels at the ASCII controls STX and ETX. -/
def sample_header : Header :=
  { VT_MSG_START := 2, VT_MSG_END := 3, QUERY_START := 192, type_tag := fun _ => 0 }

/-- A decoder set whose classifier rejects every payload. -/
def reject_all : PGMFI_Decoder Nat Nat Nat Nat :=
  { decode_msg_type := fun _ => none,
    decode_ecu_info1 := fun _ r => (false, r),
    decode_ecu_info2 := fun _ r => (false, r),
    decode_inv_master := fun _ r => (false, r),
    decode_inv_slave := fun _ r => (false, r) }

/-- A decoder set that classifies by the first payload byte (1, 2, 3, 4) and whose
decode overloads succeed on payloads of at least two bytes, storing the second. -/
def sample_decoder : PGMFI_Decoder Nat Nat Nat Nat :=
  { decode_msg_type := fun b =>
      match b with
      | 1 :: _ => some .T_ECU_Info1
      | 2 :: _ => some .T_ECU_Info2
      | 3 :: _ => some .T_INV_Master
      | 4 :: _ => some .T_INV_Slave
      | _ => none,
    decode_ecu_info1 := fun b r => match b with | _ :: v :: _ => (true, v) | _ => (false, r),
    decode_ecu_info2 := fun b r => match b with | _ :: v :: _ => (true, v) | _ => (false, r),
    decode_inv_master := fun b r => match b with | _ :: v :: _ => (true, v) | _ => (false, r),
    decode_inv_slave := fun b r => match b with | _ :: v :: _ => (true, v) | _ => (false, r) }

/-- A freshly constructed object with an eight-byte zeroed buffer. -/
def sample_dlc : Pgmfi_Dlc Nat Nat Nat Nat :=
  Pgmfi_Dlc.init (List.replicate 8 0) .T_ECU_Info1 0 0 0 0

/-- An object holding an untaken `Inverter_Master` record. -/
def sample_pending : Pgmfi_Dlc Nat Nat Nat Nat :=
  { sample_dlc with msg_available := true, msg_available_type := .T_INV_Master, inv_master := 77 }

/-- A header with four distinct type tags, for evaluating `query`. -/
def sample_query_header : Header :=
  { VT_MSG_START := 2, VT_MSG_END := 3, QUERY_START := 192,
    type_tag := fun t =>
      match t with
      | .T_ECU_Info1 => 203
      | .T_ECU_Info2 => 204
      | .T_INV_Master => 205
      | .T_INV_Slave => 206 }

/-- Sample caller-side records. -/
def sample_outputs : Outputs Nat Nat Nat Nat := { ecu1 := 11, ecu2 := 12, master := 13, slave := 14 }

end DLC

namespace DLC

theorem hexval_hexchar (d : Nat) (h : d < 16) : hexval (hexchar d) = some d := by
  interval_cases d <;> decide

theorem hexchar_ne_zero (d : Nat) : hexchar d ≠ 0 := by
  unfold hexchar; split <;> omega

theorem isspace_hexchar (d : Nat) (h : d < 16) : isspace (hexchar d) = false := by
  interval_cases d <;> decide

theorem hexchar_not_sign (d : Nat) (h : d < 16) : hexchar d ≠ 43 ∧ hexchar d ≠ 45 := by
  interval_cases d <;> decide

theorem sscanf_sprintf (b : Nat) (hb : b < 256) (rest : List Nat) :
    sscanf_2hhX (sprintf_02X b ++ rest) = some b := by
  have h1 : b % 256 / 16 < 16 := by omega
  have h2 : b % 16 < 16 := by omega
  have e : 16 * (b % 256 / 16) + b % 16 = b := by omega
  simp [sscanf_2hhX, sprintf_02X, cstr, skip_space, scan_2hhX, hexchar_ne_zero,
    isspace_hexchar _ h1, (hexchar_not_sign _ h1).1, (hexchar_not_sign _ h1).2,
    hexval_hexchar _ h1, hexval_hexchar _ h2, e]

theorem hex_loop_encode (stack : Nat → Nat) (B : List Nat) (hB : ∀ b ∈ B, b < 256) :
    ∀ (i : Nat) (rest : List Nat),
      hex_loop stack B.length i (hex_encode B ++ rest) = B := by
  induction B with
  | nil => intro i rest; rfl
  | cons b bs ih =>
    intro i rest
    have hb : b < 256 := hB b (List.mem_cons_self _ _)
    have hbs : ∀ x ∈ bs, x < 256 := fun x hx => hB x (List.mem_cons_of_mem _ hx)
    have hd : (hex_encode (b :: bs) ++ rest).drop 2 = hex_encode bs ++ rest := by
      simp [hex_encode, sprintf_02X]
    have hs : sscanf_2hhX (hex_encode (b :: bs) ++ rest) = some b := by
      have := sscanf_sprintf b hb (hex_encode bs ++ rest)
      simpa [hex_encode, List.append_assoc] using this
    simp only [List.length_cons, hex_loop, hs, hd, ih hbs]

theorem hex_encode_length (B : List Nat) : (hex_encode B).length = 2 * B.length := by
  induction B with
  | nil => rfl
  | cons b bs ih => simp [hex_encode, sprintf_02X, ih]; omega

/-- C1. Hex codec round trip: for every byte sequence `B`, the conversion loop of
`recieve_message` applied to the text that the conversion loop of `send_message`
produces for `B` (whatever memory follows the text, whatever the local array held
before) yields exactly `B`. -/
theorem hex_roundtrip (stack : Nat → Nat) (B rest : List Nat) (hB : ∀ b ∈ B, b < 256) :
    hex_to_binary stack (hex_encode B ++ rest) (hex_encode B).length = B := by
  unfold hex_to_binary
  rw [hex_encode_length, Nat.mul_div_cancel_left _ (by decide : 0 < 2)]
  exact hex_loop_encode stack B hB 0 rest

theorem hex_roundtrip_witness :
    (∀ b ∈ [203, 0, 24, 9, 111], b < 256) ∧
      hex_to_binary (fun _ => 170) (hex_encode [203, 0, 24, 9, 111] ++ [7, 0])
        (hex_encode [203, 0, 24, 9, 111]).length = [203, 0, 24, 9, 111] :=
  ⟨by decide, hex_roundtrip (fun _ => 170) [203, 0, 24, 9, 111] [7, 0] (by decide)⟩

end DLC

namespace DLC

section Store

variable {R1 R2 RM RS : Type}

theorem decode_switch_flag (D : PGMFI_Decoder R1 R2 RM RS) (s : Pgmfi_Dlc R1 R2 RM RS)
    (bin : List Nat) (t : QueryType) :
    (decode_switch D s bin t).2.msg_available = s.msg_available ∧
      (decode_switch D s bin t).2.msg_available_type = s.msg_available_type ∧
      (decode_switch D s bin t).2.rx_buffer = s.rx_buffer ∧
      (decode_switch D s bin t).2.rx_index = s.rx_index := by
  cases t <;> simp [decode_switch]

theorem available_iff (s : Pgmfi_Dlc R1 R2 RM RS) (T : QueryType) :
    available s T = true ↔ s.msg_available = true ∧ s.msg_available_type = T := by
  simp [available]

theorem hex_loop_length (stack : Nat → Nat) (n : Nat) :
    ∀ (i : Nat) (m : List Nat), (hex_loop stack n i m).length = n := by
  induction n with
  | zero => intro i m; rfl
  | succ n ih => intro i m; simp [hex_loop, ih]

theorem hex_to_binary_length (stack : Nat → Nat) (msg : List Nat) (len : Nat) :
    (hex_to_binary stack msg len).length = len / 2 := by
  simp [hex_to_binary, hex_loop_length]

theorem recieve_message_cases (D : PGMFI_Decoder R1 R2 RM RS) (stack : Nat → Nat)
    (s : Pgmfi_Dlc R1 R2 RM RS) (msg : List Nat) (len : Nat) :
    (len % 2 = 1 ∧ recieve_message D stack s msg len = (s, RxExit.odd_length)) ∨
    (len % 2 = 0 ∧ D.decode_msg_type (hex_to_binary stack msg len) = none ∧
      recieve_message D stack s msg len
        = (s, RxExit.not_classified (hex_to_binary stack msg len))) ∨
    (∃ t, len % 2 = 0 ∧ D.decode_msg_type (hex_to_binary stack msg len) = some t ∧
      (decode_switch D s (hex_to_binary stack msg len) t).1 = false ∧
      recieve_message D stack s msg len
        = ((decode_switch D s (hex_to_binary stack msg len) t).2,
            RxExit.decode_failed (hex_to_binary stack msg len) t)) ∨
    (∃ t, len % 2 = 0 ∧ D.decode_msg_type (hex_to_binary stack msg len) = some t ∧
      (decode_switch D s (hex_to_binary stack msg len) t).1 = true ∧
      recieve_message D stack s msg len
        = ({ (decode_switch D s (hex_to_binary stack msg len) t).2 with
              msg_available_type := t, msg_available := true },
            RxExit.recorded (hex_to_binary stack msg len) t)) := by
  unfold recieve_message
  by_cases hodd : len % 2 ≠ 0
  · left
    exact ⟨by omega, by simp [hodd]⟩
  · right
    have hev : len % 2 = 0 := by omega
    cases hc : D.decode_msg_type (hex_to_binary stack msg len) with
    | none => left; simp [hev, hc]
    | some t =>
      right
      cases hd : (decode_switch D s (hex_to_binary stack msg len) t).1 with
      | false => left; exact ⟨t, hev, rfl, hd, by simp [hev, hc, hd]⟩
      | true => right; exact ⟨t, hev, rfl, hd, by simp [hev, hc, hd]⟩

theorem recieve_message_rx (D : PGMFI_Decoder R1 R2 RM RS) (stack : Nat → Nat)
    (s : Pgmfi_Dlc R1 R2 RM RS) (msg : List Nat) (len : Nat) :
    (recieve_message D stack s msg len).1.rx_buffer = s.rx_buffer ∧
      (recieve_message D stack s msg len).1.rx_index = s.rx_index := by
  rcases recieve_message_cases D stack s msg len with h | h | ⟨t, h⟩ | ⟨t, h⟩
  · simp [h.2]
  · simp [h.2.2]
  · simp [h.2.2.2, (decode_switch_flag D s _ t).2.2]
  · simp [h.2.2.2, (decode_switch_flag D s _ t).2.2]

theorem data_fst (s : Pgmfi_Dlc R1 R2 RM RS) (o : Outputs R1 R2 RM RS) (T : QueryType) :
    (data s o T).1 = available s T := by
  cases T <;> cases hm : s.msg_available <;>
    simp [data, data_ecu_info1, data_ecu_info2, data_inv_master, data_inv_slave,
      available, hm] <;> split <;> simp_all

theorem data_flag_of_success (s : Pgmfi_Dlc R1 R2 RM RS) (o : Outputs R1 R2 RM RS)
    (T : QueryType) (h : (data s o T).1 = true) :
    (data s o T).2.1.msg_available = false := by
  cases T <;> simp only [data, data_ecu_info1, data_ecu_info2, data_inv_master,
    data_inv_slave] at h ⊢ <;> split at h <;> simp_all

end Store

end DLC

namespace DLC

section StoreClaims

variable {R1 R2 RM RS : Type}

/-- C2, as stated, fails.  The frame `1G` has even length and a group that is not
valid hexadecimal (`sscanf` stops at `G` and stores `01`), yet `recieve_message`
calls the classifier with the one-byte payload `01`, here with a classifier that
rejects everything.  With a decoder set that accepts the payload `02 05`, the frame
`2G05` is recorded: the flag goes from `false` to `true` and the tag from
`T_ECU_Info1` to `T_ECU_Info2`. -/
theorem nonhex_frame_reaches_classifier :
    (recieve_message reject_all (fun _ => 0) sample_dlc [49, 71, 0, 0, 0, 0, 0, 0] 2).2
        = RxExit.not_classified [1] ∧
      RxExit.classifier_called
        (recieve_message reject_all (fun _ => 0) sample_dlc [49, 71, 0, 0, 0, 0, 0, 0] 2).2
        = true ∧
      (recieve_message sample_decoder (fun _ => 0) sample_dlc [50, 71, 48, 53, 0, 0, 0, 0] 4).2
        = RxExit.recorded [2, 5] QueryType.T_ECU_Info2 ∧
      sample_dlc.msg_available = false ∧
      sample_dlc.msg_available_type = QueryType.T_ECU_Info1 ∧
      (recieve_message sample_decoder (fun _ => 0) sample_dlc
        [50, 71, 48, 53, 0, 0, 0, 0] 4).1.msg_available = true ∧
      (recieve_message sample_decoder (fun _ => 0) sample_dlc
        [50, 71, 48, 53, 0, 0, 0, 0] 4).1.msg_available_type = QueryType.T_ECU_Info2 := by
  decide

/-- C2, amended.  Every even-length completed frame, whether or not its groups are
valid hexadecimal, is converted and handed to the classifier as a payload of
`len / 2` bytes; the availability flag and the type tag are left unchanged when the
classifier or the type-specific decoder rejects that payload, and are set to
`true` and the classified type otherwise. -/
theorem even_frame_always_classified (D : PGMFI_Decoder R1 R2 RM RS) (stack : Nat → Nat)
    (s : Pgmfi_Dlc R1 R2 RM RS) (msg : List Nat) (len : Nat) (h : len % 2 = 0) :
    RxExit.classifier_called (recieve_message D stack s msg len).2 = true ∧
      (hex_to_binary stack msg len).length = len / 2 ∧
      ((recieve_message D stack s msg len).2
            = RxExit.not_classified (hex_to_binary stack msg len) ∧
          recieve_message D stack s msg len = (s, (recieve_message D stack s msg len).2) ∨
        (∃ t, (recieve_message D stack s msg len).2
            = RxExit.decode_failed (hex_to_binary stack msg len) t ∧
          (recieve_message D stack s msg len).1.msg_available = s.msg_available ∧
          (recieve_message D stack s msg len).1.msg_available_type = s.msg_available_type) ∨
        (∃ t, (recieve_message D stack s msg len).2
            = RxExit.recorded (hex_to_binary stack msg len) t ∧
          (recieve_message D stack s msg len).1.msg_available = true ∧
          (recieve_message D stack s msg len).1.msg_available_type = t)) := by
  refine ⟨?_, hex_to_binary_length stack msg len, ?_⟩
  · rcases recieve_message_cases D stack s msg len with c | c | ⟨t, c⟩ | ⟨t, c⟩
    · omega
    · rw [c.2.2]; rfl
    · rw [c.2.2.2]; rfl
    · rw [c.2.2.2]; rfl
  · rcases recieve_message_cases D stack s msg len with c | c | ⟨t, c⟩ | ⟨t, c⟩
    · omega
    · left; rw [c.2.2]; exact ⟨rfl, rfl⟩
    · right; left
      refine ⟨t, ?_, ?_, ?_⟩
      · rw [c.2.2.2]
      · rw [c.2.2.2]; exact (decode_switch_flag D s _ t).1
      · rw [c.2.2.2]; exact (decode_switch_flag D s _ t).2.1
    · right; right
      refine ⟨t, ?_, ?_, ?_⟩ <;> rw [c.2.2.2]

theorem even_frame_always_classified_witness :
    2 % 2 = 0 ∧
      RxExit.classifier_called
        (recieve_message sample_decoder (fun _ => 0) sample_dlc [90, 90, 0, 0, 0, 0, 0, 0] 2).2
        = true :=
  ⟨by decide,
    (even_frame_always_classified sample_decoder (fun _ => 0) sample_dlc
      [90, 90, 0, 0, 0, 0, 0, 0] 2 (by decide)).1⟩

/-- C3. For every completed frame of odd length, `recieve_message` returns at the
length check: neither the classifier nor any decoder is called, and the object
(availability flag, type tag, the four records, and the rest) is left as it was. -/
theorem odd_length_frame_dropped (D : PGMFI_Decoder R1 R2 RM RS) (stack : Nat → Nat)
    (s : Pgmfi_Dlc R1 R2 RM RS) (msg : List Nat) (len : Nat) (h : len % 2 = 1) :
    (recieve_message D stack s msg len).1 = s ∧
      (recieve_message D stack s msg len).2 = RxExit.odd_length ∧
      RxExit.classifier_called (recieve_message D stack s msg len).2 = false ∧
      RxExit.decoder_called (recieve_message D stack s msg len).2 = false := by
  have hne : len % 2 ≠ 0 := by omega
  simp [recieve_message, hne, RxExit.classifier_called, RxExit.decoder_called]

theorem odd_length_frame_dropped_witness :
    3 % 2 = 1 ∧
      (recieve_message sample_decoder (fun _ => 0) sample_pending
        [48, 49, 48, 50, 0, 0, 0, 0] 3).2 = RxExit.odd_length :=
  ⟨by decide,
    (odd_length_frame_dropped sample_decoder (fun _ => 0) sample_pending
      [48, 49, 48, 50, 0, 0, 0, 0] 3 (by decide)).2.1⟩

/-- C7. Consume-once: when `data(T)` returns `true`, an immediately following
`data(T)` returns `false` and `available(T)` is `false`; after a later
`recieve_message`, `data(T)` returns `true` again exactly when that call recorded
a message of type `T`. -/
theorem data_consume_once (s : Pgmfi_Dlc R1 R2 RM RS) (o : Outputs R1 R2 RM RS)
    (T : QueryType) (h : (data s o T).1 = true) :
    (∀ o2, (data (data s o T).2.1 o2 T).1 = false) ∧
      available (data s o T).2.1 T = false ∧
      ∀ (D : PGMFI_Decoder R1 R2 RM RS) (stack : Nat → Nat) (msg : List Nat) (len : Nat)
        (o3 : Outputs R1 R2 RM RS),
        (data (recieve_message D stack (data s o T).2.1 msg len).1 o3 T).1 = true ↔
          ∃ bin, (recieve_message D stack (data s o T).2.1 msg len).2
            = RxExit.recorded bin T := by
  have hf : (data s o T).2.1.msg_available = false := data_flag_of_success s o T h
  have ha : available (data s o T).2.1 T = false := by simp [available, hf]
  refine ⟨fun o2 => by rw [data_fst]; exact ha, ha, ?_⟩
  intro D stack msg len o3
  rw [data_fst, available_iff]
  rcases recieve_message_cases D stack (data s o T).2.1 msg len with c | c | ⟨t, c⟩ | ⟨t, c⟩
  · rw [c.2]; simp [hf]
  · rw [c.2.2]; simp [hf]
  · rw [c.2.2.2]; simp [(decode_switch_flag D _ _ t).1, hf]
  · rw [c.2.2.2]; simp

theorem data_consume_once_witness :
    (data sample_pending sample_outputs QueryType.T_INV_Master).1 = true ∧
      available (data sample_pending sample_outputs QueryType.T_INV_Master).2.1
        QueryType.T_INV_Master = false :=
  ⟨by decide,
    (data_consume_once sample_pending sample_outputs QueryType.T_INV_Master (by decide)).2.1⟩

/-- C8. Take with the wrong type is atomic: when no record is available or the held
tag differs from `T`, `data(T)` returns `false` and leaves the object and the
caller's record as they were, so a pending record of another type `U` stays
`available(U)`. -/
theorem data_wrong_type_atomic (s : Pgmfi_Dlc R1 R2 RM RS) (o : Outputs R1 R2 RM RS)
    (T : QueryType) (h : ¬ (s.msg_available = true ∧ s.msg_available_type = T)) :
    data s o T = (false, s, o) ∧
      ∀ U, available s U = true → available (data s o T).2.1 U = true := by
  have key : data s o T = (false, s, o) := by
    cases T <;> cases hm : s.msg_available <;>
      simp_all [data, data_ecu_info1, data_ecu_info2, data_inv_master, data_inv_slave]
  exact ⟨key, fun U hU => by rw [key]; exact hU⟩

theorem data_wrong_type_atomic_witness :
    ¬ (sample_pending.msg_available = true ∧
        sample_pending.msg_available_type = QueryType.T_ECU_Info2) ∧
      (data sample_pending sample_outputs QueryType.T_ECU_Info2
          = (false, sample_pending, sample_outputs) ∧
        ∀ U, available sample_pending U = true →
          available (data sample_pending sample_outputs QueryType.T_ECU_Info2).2.1 U = true) :=
  ⟨by decide,
    data_wrong_type_atomic sample_pending sample_outputs QueryType.T_ECU_Info2 (by decide)⟩

/-- C9. Single-slot overwrite and exclusivity: from every prior state, when an
even-length frame is classified as type `B` and the decoder of `B` succeeds, after
`recieve_message` `available(B)` is `true` and `available(U)` is `false` for each
other type `U`, so a record of another type that was pending is no longer
available. -/
theorem record_overwrites_slot (D : PGMFI_Decoder R1 R2 RM RS) (stack : Nat → Nat)
    (s : Pgmfi_Dlc R1 R2 RM RS) (msg : List Nat) (len : Nat) (B : QueryType)
    (hlen : len % 2 = 0)
    (hclass : D.decode_msg_type (hex_to_binary stack msg len) = some B)
    (hdec : (decode_switch D s (hex_to_binary stack msg len) B).1 = true) :
    (recieve_message D stack s msg len).2 = RxExit.recorded (hex_to_binary stack msg len) B ∧
      available (recieve_message D stack s msg len).1 B = true ∧
      ∀ U, U ≠ B → available (recieve_message D stack s msg len).1 U = false := by
  have e : recieve_message D stack s msg len
      = ({ (decode_switch D s (hex_to_binary stack msg len) B).2 with
            msg_available_type := B, msg_available := true },
          RxExit.recorded (hex_to_binary stack msg len) B) := by
    simp [recieve_message, hlen, hclass, hdec]
  rw [e]
  refine ⟨rfl, by simp [available], ?_⟩
  intro U hU
  simp [available, Ne.symm hU]

theorem record_overwrites_slot_witness :
    4 % 2 = 0 ∧
      sample_decoder.decode_msg_type
        (hex_to_binary (fun _ => 0) [48, 52, 55, 70, 0, 0, 0, 0] 4) = some QueryType.T_INV_Slave ∧
      available sample_pending QueryType.T_INV_Master = true ∧
      available (recieve_message sample_decoder (fun _ => 0) sample_pending
        [48, 52, 55, 70, 0, 0, 0, 0] 4).1 QueryType.T_INV_Slave = true ∧
      available (recieve_message sample_decoder (fun _ => 0) sample_pending
        [48, 52, 55, 70, 0, 0, 0, 0] 4).1 QueryType.T_INV_Master = false :=
  ⟨by decide, by decide, by decide,
    (record_overwrites_slot sample_decoder (fun _ => 0) sample_pending
      [48, 52, 55, 70, 0, 0, 0, 0] 4 QueryType.T_INV_Slave (by decide) (by decide)
      (by decide)).2.1,
    (record_overwrites_slot sample_decoder (fun _ => 0) sample_pending
      [48, 52, 55, 70, 0, 0, 0, 0] 4 QueryType.T_INV_Slave (by decide) (by decide)
      (by decide)).2.2 QueryType.T_INV_Master (by decide)⟩

/-- C10. Failed classification or failed decode does not update LatestResult: for an
even-length frame for which `decode_msg_type` returns `false`, or for which the
decode overload of the classified type returns `false`, `recieve_message` leaves
the availability flag and the type tag as they were, so `available(T)` is the same
as before for every type `T`. -/
theorem failed_decode_keeps_result (D : PGMFI_Decoder R1 R2 RM RS) (stack : Nat → Nat)
    (s : Pgmfi_Dlc R1 R2 RM RS) (msg : List Nat) (len : Nat)
    (hlen : len % 2 = 0)
    (hfail : D.decode_msg_type (hex_to_binary stack msg len) = none ∨
      ∃ t, D.decode_msg_type (hex_to_binary stack msg len) = some t ∧
        (decode_switch D s (hex_to_binary stack msg len) t).1 = false) :
    (recieve_message D stack s msg len).1.msg_available = s.msg_available ∧
      (recieve_message D stack s msg len).1.msg_available_type = s.msg_available_type ∧
      ∀ T, available (recieve_message D stack s msg len).1 T = available s T := by
  have key : (recieve_message D stack s msg len).1.msg_available = s.msg_available ∧
      (recieve_message D stack s msg len).1.msg_available_type = s.msg_available_type := by
    rcases hfail with hc | ⟨t, hc, hd⟩
    · simp [recieve_message, hlen, hc]
    · simp [recieve_message, hlen, hc, hd, (decode_switch_flag D s _ t).1,
        (decode_switch_flag D s _ t).2.1]
  exact ⟨key.1, key.2, fun T => by simp [available, key.1, key.2]⟩

theorem failed_decode_keeps_result_witness :
    2 % 2 = 0 ∧
      (sample_decoder.decode_msg_type
          (hex_to_binary (fun _ => 0) [48, 50, 0, 0, 0, 0, 0, 0] 2) = none ∨
        ∃ t, sample_decoder.decode_msg_type
            (hex_to_binary (fun _ => 0) [48, 50, 0, 0, 0, 0, 0, 0] 2) = some t ∧
          (decode_switch sample_decoder sample_pending
            (hex_to_binary (fun _ => 0) [48, 50, 0, 0, 0, 0, 0, 0] 2) t).1 = false) ∧
      ∀ T, available (recieve_message sample_decoder (fun _ => 0) sample_pending
          [48, 50, 0, 0, 0, 0, 0, 0] 2).1 T = available sample_pending T :=
  ⟨by decide, Or.inr ⟨QueryType.T_ECU_Info2, by decide, by decide⟩,
    (failed_decode_keeps_result sample_decoder (fun _ => 0) sample_pending
      [48, 50, 0, 0, 0, 0, 0, 0] 2 (by decide)
      (Or.inr ⟨QueryType.T_ECU_Info2, by decide, by decide⟩)).2.2⟩

end StoreClaims

end DLC

namespace DLC

section Reassembler

variable {R1 R2 RM RS : Type}

theorem store_bytes_cons (s : Pgmfi_Dlc R1 R2 RM RS) (b : Nat) (w : List Nat) :
    store_bytes s (b :: w) = store_bytes (store_byte s b) w := rfl

theorem store_bytes_rx_index (w : List Nat) :
    ∀ s : Pgmfi_Dlc R1 R2 RM RS, (store_bytes s w).rx_index = s.rx_index + w.length := by
  induction w with
  | nil => intro s; rfl
  | cons b w ih =>
    intro s
    rw [store_bytes_cons, ih]
    simp [store_byte]; omega

theorem store_bytes_capacity (w : List Nat) :
    ∀ s : Pgmfi_Dlc R1 R2 RM RS,
      (store_bytes s w).rx_buffer.length = s.rx_buffer.length := by
  induction w with
  | nil => intro s; rfl
  | cons b w ih =>
    intro s
    rw [store_bytes_cons, ih]
    simp [store_byte]

theorem store_bytes_store (w : List Nat) :
    ∀ s : Pgmfi_Dlc R1 R2 RM RS,
      (store_bytes s w).msg_available = s.msg_available ∧
      (store_bytes s w).msg_available_type = s.msg_available_type ∧
      (store_bytes s w).ecu_info1 = s.ecu_info1 ∧
      (store_bytes s w).ecu_info2 = s.ecu_info2 ∧
      (store_bytes s w).inv_master = s.inv_master ∧
      (store_bytes s w).inv_slave = s.inv_slave := by
  induction w with
  | nil => intro s; simp [store_bytes]
  | cons b w ih =>
    intro s
    rw [store_bytes_cons]
    have h := ih (store_byte s b)
    simpa [store_byte] using h

theorem take_succ_set (l : List Nat) (i b : Nat) (h : i < l.length) :
    (l.set i b).take (i + 1) = l.take i ++ [b] := by
  induction l generalizing i with
  | nil => simp at h
  | cons a l ih =>
    cases i with
    | zero => simp
    | succ i =>
      simp only [List.length_cons, Nat.add_lt_add_iff_right] at h
      simp [List.set, List.take, ih i h]

theorem take_set_of_le (l : List Nat) (i j b : Nat) (h : j ≤ i) :
    (l.set i b).take j = l.take j := by
  induction l generalizing i j with
  | nil => simp
  | cons a l ih =>
    cases j with
    | zero => simp
    | succ j =>
      cases i with
      | zero => omega
      | succ i => simp [List.set, List.take, ih i j (by omega)]

theorem store_bytes_take (w : List Nat) :
    ∀ s : Pgmfi_Dlc R1 R2 RM RS, s.rx_index + w.length ≤ s.rx_buffer.length →
      (store_bytes s w).rx_buffer.take (s.rx_index + w.length)
        = s.rx_buffer.take s.rx_index ++ w := by
  induction w with
  | nil => intro s _; simp [store_bytes]
  | cons b w ih =>
    intro s hfit
    simp only [List.length_cons] at hfit
    rw [store_bytes_cons]
    have h1 := ih (store_byte s b) (by simp [store_byte]; omega)
    have e : (store_byte s b).rx_index + w.length = s.rx_index + (b :: w).length := by
      simp [store_byte]; omega
    rw [e] at h1
    rw [h1]
    have h2 : (store_byte s b).rx_buffer.take (store_byte s b).rx_index
        = s.rx_buffer.take s.rx_index ++ [b] := by
      simp only [store_byte]
      exact take_succ_set s.rx_buffer s.rx_index b (by omega)
    rw [h2]; simp

theorem loop_while_store (H : Header) (D : PGMFI_Decoder R1 R2 RM RS) (stack : Nat → Nat)
    (w rest : List Nat) :
    ∀ s : Pgmfi_Dlc R1 R2 RM RS,
      (∀ b ∈ w, b < 256 ∧ b ≠ H.VT_MSG_START ∧ b ≠ H.VT_MSG_END) →
      s.rx_index + w.length ≤ s.rx_buffer.length →
      loop_while H D stack (w ++ rest) s = loop_while H D stack rest (store_bytes s w) := by
  induction w with
  | nil => intro s _ _; rfl
  | cons b w ih =>
    intro s hw hfit
    simp only [List.length_cons] at hfit
    have hb := hw b (List.mem_cons_self _ _)
    have hmod : b % 256 = b := Nat.mod_eq_of_lt hb.1
    have hlt : s.rx_index < s.rx_buffer.length := by omega
    rw [store_bytes_cons, ← ih (store_byte s b)
      (fun x hx => hw x (List.mem_cons_of_mem _ hx)) (by simp [store_byte]; omega)]
    simp [loop_while, hmod, hb.2.1, hb.2.2, hlt, store_byte]

theorem loop_while_start (H : Header) (D : PGMFI_Decoder R1 R2 RM RS) (stack : Nat → Nat)
    (b : Nat) (rest : List Nat) (s : Pgmfi_Dlc R1 R2 RM RS) (hb : b % 256 = H.VT_MSG_START) :
    loop_while H D stack (b :: rest) s
      = some { dlc := { s with rx_index := 0 }, serial1 := rest, calls := [] } := by
  simp [loop_while, hb]

theorem loop_while_end (H : Header) (D : PGMFI_Decoder R1 R2 RM RS) (stack : Nat → Nat)
    (b : Nat) (rest : List Nat) (s : Pgmfi_Dlc R1 R2 RM RS)
    (hs : b % 256 ≠ H.VT_MSG_START) (he : b % 256 = H.VT_MSG_END) :
    loop_while H D stack (b :: rest) s
      = (loop_while H D stack rest (recieve_message D stack s s.rx_buffer s.rx_index).1).map
          fun e => { e with calls :=
            { frame := s.rx_buffer.take s.rx_index,
              taken := (recieve_message D stack s s.rx_buffer s.rx_index).2 } :: e.calls } := by
  have hne : H.VT_MSG_END ≠ H.VT_MSG_START := fun h => hs (he.trans h)
  simp [loop_while, he, hne]

theorem feed_nil (H : Header) (D : PGMFI_Decoder R1 R2 RM RS) (stack : Nat → Nat) (n : Nat)
    (s : Pgmfi_Dlc R1 R2 RM RS) :
    feed H D stack n [] s = some { dlc := s, serial1 := [], calls := [] } := by
  cases n <;> simp [feed]

theorem feed_start (H : Header) (D : PGMFI_Decoder R1 R2 RM RS) (stack : Nat → Nat) (n : Nat)
    (b : Nat) (rest : List Nat) (s : Pgmfi_Dlc R1 R2 RM RS) (hb : b % 256 = H.VT_MSG_START) :
    feed H D stack (n + 1) (b :: rest) s = feed H D stack n rest { s with rx_index := 0 } := by
  simp only [feed, loop, List.length_cons, Nat.add_one_ne_zero, if_false,
    loop_while_start H D stack b rest s hb, List.nil_append]
  cases feed H D stack n rest { s with rx_index := 0 } <;> rfl

theorem feed_store_start (H : Header) (D : PGMFI_Decoder R1 R2 RM RS) (stack : Nat → Nat)
    (n : Nat) (w : List Nat) (b : Nat) (rest : List Nat) (s : Pgmfi_Dlc R1 R2 RM RS)
    (hw : ∀ x ∈ w, x < 256 ∧ x ≠ H.VT_MSG_START ∧ x ≠ H.VT_MSG_END)
    (hfit : s.rx_index + w.length ≤ s.rx_buffer.length)
    (hb : b % 256 = H.VT_MSG_START) :
    feed H D stack (n + 1) (w ++ b :: rest) s
      = feed H D stack n rest { store_bytes s w with rx_index := 0 } := by
  have hl : (w ++ b :: rest).length ≠ 0 := by simp
  simp only [feed, loop, hl, if_false, loop_while_store H D stack w (b :: rest) s hw hfit,
    loop_while_start H D stack b rest _ hb, List.nil_append]
  cases feed H D stack n rest { store_bytes s w with rx_index := 0 } <;> rfl

theorem feed_frame (H : Header) (D : PGMFI_Decoder R1 R2 RM RS) (stack : Nat → Nat)
    (n : Nat) (w : List Nat) (b : Nat) (s : Pgmfi_Dlc R1 R2 RM RS)
    (hw : ∀ x ∈ w, x < 256 ∧ x ≠ H.VT_MSG_START ∧ x ≠ H.VT_MSG_END)
    (hfit : s.rx_index + w.length ≤ s.rx_buffer.length)
    (hs : b % 256 ≠ H.VT_MSG_START) (he : b % 256 = H.VT_MSG_END) :
    feed H D stack (n + 1) (w ++ [b]) s
      = some
          { dlc := (recieve_message D stack (store_bytes s w) (store_bytes s w).rx_buffer
              (s.rx_index + w.length)).1,
            serial1 := [],
            calls := [{ frame := s.rx_buffer.take s.rx_index ++ w,
                        taken := (recieve_message D stack (store_bytes s w)
                          (store_bytes s w).rx_buffer (s.rx_index + w.length)).2 }] } := by
  have hl : (w ++ [b]).length ≠ 0 := by simp
  have h1 : loop H D stack (w ++ [b]) s
      = some
          { dlc := (recieve_message D stack (store_bytes s w) (store_bytes s w).rx_buffer
              (s.rx_index + w.length)).1,
            serial1 := [],
            calls := [{ frame := s.rx_buffer.take s.rx_index ++ w,
                        taken := (recieve_message D stack (store_bytes s w)
                          (store_bytes s w).rx_buffer (s.rx_index + w.length)).2 }] } := by
    simp only [loop, hl, if_false]
    rw [loop_while_store H D stack w [b] s hw hfit, loop_while_end H D stack b [] _ hs he]
    simp only [loop_while, Option.map_some', store_bytes_rx_index,
      store_bytes_take w s hfit]
  simp only [feed, hl, if_false, h1, feed_nil, Option.map_some', List.append_nil]

end Reassembler

end DLC

namespace DLC

section ReassemblerClaims

variable {R1 R2 RM RS : Type}

/-- C4. Frame reassembler pre-emption: from every state, for every sequence `w` of
non-sentinel bytes that fits in the buffer, feeding `START`, then `w`, then `END`
empties the source and makes exactly one call of `recieve_message`, at that `END`,
with `msg[0..len) = w` and `len = |w|`, whatever was accumulated before.  In
particular `[START,'A','B',START,'C','D',END]` fed to a freshly constructed object
yields exactly one completed frame, `"CD"`. -/
theorem start_preempts_frame (H : Header) (D : PGMFI_Decoder R1 R2 RM RS)
    (stack : Nat → Nat) (n : Nat)
    (hS : H.VT_MSG_START < 256) (hE : H.VT_MSG_END < 256)
    (hSE : H.VT_MSG_START ≠ H.VT_MSG_END) :
    (∀ (s : Pgmfi_Dlc R1 R2 RM RS) (w : List Nat),
      (∀ x ∈ w, x < 256 ∧ x ≠ H.VT_MSG_START ∧ x ≠ H.VT_MSG_END) →
      w.length ≤ s.rx_buffer.length →
      ∃ e, feed H D stack (n + 2) (H.VT_MSG_START :: (w ++ [H.VT_MSG_END])) s = some e ∧
        e.serial1 = [] ∧
        e.calls = [{ frame := w,
                     taken := (recieve_message D stack
                       (store_bytes { s with rx_index := 0 } w)
                       (store_bytes { s with rx_index := 0 } w).rx_buffer w.length).2 }] ∧
        e.dlc.rx_buffer.take w.length = w ∧
        e.dlc.rx_index = w.length) ∧
    (∀ (buf : List Nat) (t0 : QueryType) (r1 : R1) (r2 : R2) (rm : RM) (rs : RS),
      2 ≤ buf.length →
      (∀ x ∈ [65, 66, 67, 68], x ≠ H.VT_MSG_START ∧ x ≠ H.VT_MSG_END) →
      ∃ e, feed H D stack (n + 3)
          [H.VT_MSG_START, 65, 66, H.VT_MSG_START, 67, 68, H.VT_MSG_END]
          (Pgmfi_Dlc.init buf t0 r1 r2 rm rs) = some e ∧
        e.serial1 = [] ∧
        e.calls.map RxCall.frame = [[67, 68]]) := by
  have hSm : H.VT_MSG_START % 256 = H.VT_MSG_START := Nat.mod_eq_of_lt hS
  have hEm : H.VT_MSG_END % 256 = H.VT_MSG_END := Nat.mod_eq_of_lt hE
  have hEs : H.VT_MSG_END % 256 ≠ H.VT_MSG_START := by rw [hEm]; exact Ne.symm hSE
  constructor
  · intro s w hw hfit
    have hfit0 : ({ s with rx_index := 0 } : Pgmfi_Dlc R1 R2 RM RS).rx_index + w.length
        ≤ ({ s with rx_index := 0 } : Pgmfi_Dlc R1 R2 RM RS).rx_buffer.length := by
      simpa using hfit
    have ht := store_bytes_take w { s with rx_index := 0 } hfit0
    rw [feed_start H D stack (n + 1) _ _ s hSm,
      feed_frame H D stack n w _ { s with rx_index := 0 } hw hfit0 hEs hEm]
    simp only [Nat.zero_add, List.take_zero, List.nil_append] at ht ⊢
    refine ⟨_, rfl, rfl, rfl, ?_, ?_⟩
    · rw [(recieve_message_rx D stack _ _ _).1]; exact ht
    · rw [(recieve_message_rx D stack _ _ _).2, store_bytes_rx_index]; simp
  · intro buf t0 r1 r2 rm rs hbuf hx
    have hAB : ∀ x ∈ [65, 66], x < 256 ∧ x ≠ H.VT_MSG_START ∧ x ≠ H.VT_MSG_END := by
      intro x hm
      have h1 : x < 256 := by
        simp only [List.mem_cons, List.mem_singleton, List.not_mem_nil, or_false] at hm
        omega
      exact ⟨h1, hx x (by simp only [List.mem_cons] at hm ⊢; tauto)⟩
    have hCD : ∀ x ∈ [67, 68], x < 256 ∧ x ≠ H.VT_MSG_START ∧ x ≠ H.VT_MSG_END := by
      intro x hm
      have h1 : x < 256 := by
        simp only [List.mem_cons, List.mem_singleton, List.not_mem_nil, or_false] at hm
        omega
      exact ⟨h1, hx x (by simp only [List.mem_cons] at hm ⊢; tauto)⟩
    have e1 : [H.VT_MSG_START, 65, 66, H.VT_MSG_START, 67, 68, H.VT_MSG_END]
        = H.VT_MSG_START :: ([65, 66] ++ H.VT_MSG_START :: ([67, 68] ++ [H.VT_MSG_END])) := rfl
    rw [e1, feed_start H D stack (n + 2) _ _ _ hSm,
      feed_store_start H D stack (n + 1) [65, 66] _ _ _ hAB
        (by simpa [Pgmfi_Dlc.init] using hbuf) hSm,
      feed_frame H D stack n [67, 68] _ _ hCD
        (by simpa [store_bytes_capacity, Pgmfi_Dlc.init] using hbuf) hEs hEm]
    exact ⟨_, rfl, rfl, by simp⟩

theorem start_preempts_frame_witness :
    (2 < 256 ∧ 3 < 256 ∧ 2 ≠ 3) ∧
      (∀ x ∈ [52, 49], x < 256 ∧ x ≠ 2 ∧ x ≠ 3) ∧
      [52, 49].length ≤ sample_pending.rx_buffer.length ∧
      (∃ e, feed sample_header sample_decoder (fun _ => 0) (0 + 2) (2 :: ([52, 49] ++ [3]))
          sample_pending = some e ∧
        e.serial1 = [] ∧
        e.calls = [{ frame := [52, 49],
                     taken := (recieve_message sample_decoder (fun _ => 0)
                       (store_bytes { sample_pending with rx_index := 0 } [52, 49])
                       (store_bytes { sample_pending with rx_index := 0 } [52, 49]).rx_buffer
                       [52, 49].length).2 }] ∧
        e.dlc.rx_buffer.take [52, 49].length = [52, 49] ∧
        e.dlc.rx_index = [52, 49].length) ∧
      ∃ e, feed sample_header sample_decoder (fun _ => 0) (0 + 3) [2, 65, 66, 2, 67, 68, 3]
          (Pgmfi_Dlc.init (List.replicate 8 0) QueryType.T_ECU_Info1 0 0 0 0) = some e ∧
        e.serial1 = [] ∧ e.calls.map RxCall.frame = [[67, 68]] :=
  ⟨by decide, by decide, by decide,
    (start_preempts_frame sample_header sample_decoder (fun _ => 0) 0
      (by decide) (by decide) (by decide)).1 sample_pending [52, 49] (by decide) (by decide),
    (start_preempts_frame sample_header sample_decoder (fun _ => 0) 0
      (by decide) (by decide) (by decide)).2
      (List.replicate 8 0) QueryType.T_ECU_Info1 0 0 0 0 (by decide) (by decide)⟩

theorem loop_while_no_start (H : Header) (D : PGMFI_Decoder R1 R2 RM RS) (stack : Nat → Nat)
    (input : List Nat) :
    ∀ s : Pgmfi_Dlc R1 R2 RM RS,
      (∀ b ∈ input, b < 256 ∧ b ≠ H.VT_MSG_START) →
      s.rx_index + (input.length - input.count H.VT_MSG_END) ≤ s.rx_buffer.length →
      ∃ e, loop_while H D stack input s = some e ∧ e.serial1 = [] ∧
        e.calls.length = input.count H.VT_MSG_END := by
  induction input with
  | nil => intro s _ _; exact ⟨_, rfl, rfl, rfl⟩
  | cons b rest ih =>
    intro s hin hfit
    have hb := hin b (List.mem_cons_self _ _)
    have hrest : ∀ x ∈ rest, x < 256 ∧ x ≠ H.VT_MSG_START :=
      fun x hx => hin x (List.mem_cons_of_mem _ hx)
    have hmod : b % 256 = b := Nat.mod_eq_of_lt hb.1
    have hcl : rest.count H.VT_MSG_END ≤ rest.length := List.count_le_length _ _
    by_cases he : b = H.VT_MSG_END
    · have hc : (b :: rest).count H.VT_MSG_END = rest.count H.VT_MSG_END + 1 := by
        rw [he]; simp
      rw [hc] at hfit ⊢
      simp only [List.length_cons] at hfit
      obtain ⟨e, h1, h2, h3⟩ := ih (recieve_message D stack s s.rx_buffer s.rx_index).1 hrest
        (by rw [(recieve_message_rx D stack s _ _).1, (recieve_message_rx D stack s _ _).2]
            omega)
      rw [loop_while_end H D stack b rest s (by rw [hmod]; exact hb.2) (by rw [hmod]; exact he),
        h1]
      exact ⟨_, rfl, h2, by simp [h3]⟩
    · have hc : (b :: rest).count H.VT_MSG_END = rest.count H.VT_MSG_END := by
        rw [List.count_cons_of_ne (Ne.symm he)]
      rw [hc] at hfit ⊢
      simp only [List.length_cons] at hfit
      have hlt : s.rx_index < s.rx_buffer.length := by omega
      obtain ⟨e, h1, h2, h3⟩ := ih (store_byte s b) hrest (by simp [store_byte]; omega)
      refine ⟨e, ?_, h2, h3⟩
      rw [← h1]
      simp [loop_while, hmod, hb.2, he, hlt, store_byte]

/-- C5, as stated, fails.  The input `'A','B',END` contains no start sentinel, yet
fed to a freshly constructed object it makes `loop` call `recieve_message` with
the frame `"AB"`, which is converted and handed to the classifier. -/
theorem end_without_start_completes_frame :
    sample_header.VT_MSG_START ∉ [65, 66, 3] ∧
      (feed sample_header reject_all (fun _ => 0) 1 [65, 66, 3] sample_dlc).map
          (fun e => e.calls)
        = some [{ frame := [65, 66], taken := RxExit.not_classified [171] }] := by
  decide

/-- C5, amended.  For every input byte sequence that contains no start sentinel
and whose non-sentinel bytes fit in the buffer, feeding it to a freshly
constructed object empties the source and calls `recieve_message` exactly once
per end sentinel in the input; no completed frame is produced when the input
contains no end sentinel either. -/
theorem no_start_one_frame_per_end (H : Header) (D : PGMFI_Decoder R1 R2 RM RS)
    (stack : Nat → Nat) (n : Nat) (buf : List Nat) (t0 : QueryType)
    (r1 : R1) (r2 : R2) (rm : RM) (rs : RS) (input : List Nat)
    (hin : ∀ b ∈ input, b < 256 ∧ b ≠ H.VT_MSG_START)
    (hfit : input.length - input.count H.VT_MSG_END ≤ buf.length) :
    ∃ e, feed H D stack (n + 1) input (Pgmfi_Dlc.init buf t0 r1 r2 rm rs) = some e ∧
      e.serial1 = [] ∧
      e.calls.length = input.count H.VT_MSG_END ∧
      (H.VT_MSG_END ∉ input → e.calls = []) := by
  have key : ∃ e, feed H D stack (n + 1) input (Pgmfi_Dlc.init buf t0 r1 r2 rm rs) = some e ∧
      e.serial1 = [] ∧ e.calls.length = input.count H.VT_MSG_END := by
    cases input with
    | nil => exact ⟨_, feed_nil H D stack (n + 1) _, rfl, rfl⟩
    | cons b rest =>
      obtain ⟨e, h1, h2, h3⟩ := loop_while_no_start H D stack (b :: rest)
        (Pgmfi_Dlc.init buf t0 r1 r2 rm rs) hin (by simpa [Pgmfi_Dlc.init] using hfit)
      have hl : (b :: rest).length ≠ 0 := by simp
      simp only [feed, loop, hl, if_false, h1, h2, feed_nil, Option.map_some',
        List.append_nil]
      exact ⟨_, rfl, rfl, h3⟩
  obtain ⟨e, h1, h2, h3⟩ := key
  refine ⟨e, h1, h2, h3, fun hno => ?_⟩
  rw [List.count_eq_zero_of_not_mem hno] at h3
  exact List.length_eq_zero.mp h3

theorem no_start_one_frame_per_end_witness :
    (∀ b ∈ [65, 3, 66, 67, 3], b < 256 ∧ b ≠ sample_header.VT_MSG_START) ∧
      [65, 3, 66, 67, 3].length - [65, 3, 66, 67, 3].count sample_header.VT_MSG_END
        ≤ (List.replicate 8 0).length ∧
      ∃ e, feed sample_header sample_decoder (fun _ => 0) (0 + 1) [65, 3, 66, 67, 3]
          (Pgmfi_Dlc.init (List.replicate 8 0) QueryType.T_ECU_Info1 0 0 0 0) = some e ∧
        e.serial1 = [] ∧
        e.calls.length = [65, 3, 66, 67, 3].count sample_header.VT_MSG_END ∧
        (sample_header.VT_MSG_END ∉ [65, 3, 66, 67, 3] → e.calls = []) :=
  ⟨by decide, by decide,
    no_start_one_frame_per_end sample_header sample_decoder (fun _ => 0) 0
      (List.replicate 8 0) QueryType.T_ECU_Info1 0 0 0 0 [65, 3, 66, 67, 3]
      (by decide) (by decide)⟩

/-- C6, evaluated at the failing input.  When the first byte waiting in `Serial1` is
the start sentinel, `loop` resets the cursor and returns at once: every byte queued
behind the sentinel is still in the source when `loop` returns, and none of them
has gone through the reassembler. -/
theorem loop_returns_at_start (H : Header) (D : PGMFI_Decoder R1 R2 RM RS)
    (stack : Nat → Nat) (s : Pgmfi_Dlc R1 R2 RM RS) (b : Nat) (rest : List Nat)
    (hb : b % 256 = H.VT_MSG_START) :
    loop H D stack (b :: rest) s
      = some { dlc := { s with rx_index := 0 }, serial1 := rest, calls := [] } := by
  simp only [loop, List.length_cons, Nat.add_one_ne_zero, if_false]
  exact loop_while_start H D stack b rest s hb

theorem loop_returns_at_start_witness :
    2 % 256 = sample_header.VT_MSG_START ∧
      (loop sample_header sample_decoder (fun _ => 0) (2 :: [48, 52, 48, 55, 3]) sample_dlc).map
          (fun e => e.serial1) = some [48, 52, 48, 55, 3] :=
  ⟨by decide, by
    rw [loop_returns_at_start sample_header sample_decoder (fun _ => 0) sample_dlc 2
      [48, 52, 48, 55, 3] (by decide)]
    rfl⟩

end ReassemblerClaims

end DLC

namespace DLC

section Codec

variable {R1 R2 RM RS : Type}

theorem cstr_append_zero (l r : List Nat) (h : ∀ c ∈ l, c ≠ 0) : cstr (l ++ 0 :: r) = l := by
  induction l with
  | nil => simp [cstr]
  | cons a l ih =>
    have ha : a ≠ 0 := h a (List.mem_cons_self _ _)
    simp [cstr, ha, ih (fun c hc => h c (List.mem_cons_of_mem _ hc))]

theorem hex_encode_ne_zero (B : List Nat) : ∀ c ∈ hex_encode B, c ≠ 0 := by
  induction B with
  | nil => intro c hc; simp [hex_encode] at hc
  | cons b bs ih =>
    intro c hc
    simp only [hex_encode, sprintf_02X, List.cons_append, List.nil_append,
      List.mem_cons] at hc
    rcases hc with h | h | h
    · rw [h]; exact hexchar_ne_zero _
    · rw [h]; exact hexchar_ne_zero _
    · exact ih c h

theorem hexchar_upper (d : Nat) (h : d < 16) :
    (48 ≤ hexchar d ∧ hexchar d ≤ 57) ∨ (65 ≤ hexchar d ∧ hexchar d ≤ 70) := by
  unfold hexchar; split <;> omega

theorem hex_encode_cons (b : Nat) (bs : List Nat) :
    hex_encode (b :: bs) = hexchar (b % 256 / 16) :: hexchar (b % 16) :: hex_encode bs := rfl

theorem recieve_message_payload (D : PGMFI_Decoder R1 R2 RM RS) (stack : Nat → Nat)
    (s : Pgmfi_Dlc R1 R2 RM RS) (msg : List Nat) (len : Nat) (h : len % 2 = 0) :
    RxExit.payload (recieve_message D stack s msg len).2
      = some (hex_to_binary stack msg len) := by
  rcases recieve_message_cases D stack s msg len with c | c | ⟨t, c⟩ | ⟨t, c⟩
  · omega
  · rw [c.2.2]; rfl
  · rw [c.2.2.2]; rfl
  · rw [c.2.2.2]; rfl

theorem example_text_eq : example_text = hex_encode example_message := by decide

theorem send_message_eq (H : Header) (msg : List Nat)
    (hS : 0 < H.VT_MSG_START ∧ H.VT_MSG_START < 256)
    (hE : 0 < H.VT_MSG_END ∧ H.VT_MSG_END < 256) :
    send_message H msg = [H.VT_MSG_START] ++ hex_encode msg ++ [H.VT_MSG_END] := by
  have hSm : H.VT_MSG_START % 256 = H.VT_MSG_START := Nat.mod_eq_of_lt hS.2
  have hEm : H.VT_MSG_END % 256 = H.VT_MSG_END := Nat.mod_eq_of_lt hE.2
  unfold send_message
  rw [hSm, hEm]
  have e : [H.VT_MSG_START] ++ hex_encode msg ++ [H.VT_MSG_END, 0]
      = ([H.VT_MSG_START] ++ hex_encode msg ++ [H.VT_MSG_END]) ++ 0 :: [] := by simp
  rw [e]
  apply cstr_append_zero
  intro c hc
  simp only [List.mem_append, List.mem_singleton, List.singleton_append,
    List.mem_cons, List.not_mem_nil, or_false] at hc
  rcases hc with (h | h) | h
  · rw [h]; omega
  · exact hex_encode_ne_zero msg c h
  · rw [h]; omega

theorem hex_encode_mem (B : List Nat) : ∀ c ∈ hex_encode B, ∃ d, d < 16 ∧ c = hexchar d := by
  induction B with
  | nil => intro c hc; simp [hex_encode] at hc
  | cons b bs ih =>
    intro c hc
    simp only [hex_encode_cons, List.mem_cons] at hc
    rcases hc with h | h | h
    · exact ⟨b % 256 / 16, by omega, h⟩
    · exact ⟨b % 16, by omega, h⟩
    · exact ih c h

theorem hex_encode_not_sentinel (H : Header) (B : List Nat)
    (hSh : hexval H.VT_MSG_START = none) (hEh : hexval H.VT_MSG_END = none) :
    ∀ c ∈ hex_encode B, c < 256 ∧ c ≠ H.VT_MSG_START ∧ c ≠ H.VT_MSG_END := by
  intro c hc
  obtain ⟨d, hd, e⟩ := hex_encode_mem B c hc
  have hv : hexval c = some d := by rw [e]; exact hexval_hexchar d hd
  refine ⟨?_, ?_, ?_⟩
  · rw [e]; unfold hexchar; split <;> omega
  · intro h; rw [h, hSh] at hv; cases hv
  · intro h; rw [h, hEh] at hv; cases hv

end Codec

end DLC

namespace DLC

section CodecClaims

variable {R1 R2 RM RS : Type}

/-- C11. `available(T)` is a pure query: it returns `true` if and only if the
availability flag is set and the held tag equals `T`, and the object after the call
is the object before it. -/
theorem available_pure_query (s : Pgmfi_Dlc R1 R2 RM RS) (T : QueryType) :
    ((available_call s T).1 = true ↔ s.msg_available = true ∧ s.msg_available_type = T) ∧
      (available_call s T).2 = s ∧
      (available_call s T).1 = available s T := by
  unfold available_call available
  split <;> simp_all

/-- C12. Query payload: for each of the four query types `T`, `query(T)` fills its
four-byte array with `[QUERY_START, tag(T), 0x00, sub(T)]`, where `sub` is `0x01`
for `ECU_Info1`, `0x02` for `ECU_Info2`, `0x00` for `Inverter_Master` and `0x03` for
`Inverter_Slave`, and what it writes is what `send_message` writes for exactly that
array. -/
theorem query_payload (H : Header) (hq : H.QUERY_START < 256)
    (ht : ∀ T, H.type_tag T < 256) :
    query_msg H QueryType.T_ECU_Info1
        = [H.QUERY_START, H.type_tag QueryType.T_ECU_Info1, 0, 1] ∧
      query_msg H QueryType.T_ECU_Info2
        = [H.QUERY_START, H.type_tag QueryType.T_ECU_Info2, 0, 2] ∧
      query_msg H QueryType.T_INV_Master
        = [H.QUERY_START, H.type_tag QueryType.T_INV_Master, 0, 0] ∧
      query_msg H QueryType.T_INV_Slave
        = [H.QUERY_START, H.type_tag QueryType.T_INV_Slave, 0, 3] ∧
      ∀ T, (query_msg H T).length = 4 ∧ query H T = send_message H (query_msg H T) := by
  have e : ∀ T, H.type_tag T % 256 = H.type_tag T := fun T => Nat.mod_eq_of_lt (ht T)
  have q : H.QUERY_START % 256 = H.QUERY_START := Nat.mod_eq_of_lt hq
  refine ⟨?_, ?_, ?_, ?_, fun T => ⟨rfl, rfl⟩⟩ <;> simp [query_msg, e, q]

theorem query_payload_witness :
    sample_query_header.QUERY_START < 256 ∧
      (∀ T, sample_query_header.type_tag T < 256) ∧
      query_msg sample_query_header QueryType.T_INV_Slave = [192, 206, 0, 3] :=
  ⟨by decide, fun T => by cases T <;> decide,
    (query_payload sample_query_header (by decide)
      (fun T => by cases T <;> decide)).2.2.2.1⟩

/-- C13. Send framing: for every binary payload of `n` bytes, `send_message` writes
to `Serial1` exactly the `2n + 2` bytes `START ++ encode(payload) ++ END`: the start
sentinel first, the hex text of the payload in order, the end sentinel last and
nothing else.  The sentinels are taken to be non-zero byte values. -/
theorem send_message_framing (H : Header) (msg : List Nat)
    (hS : 0 < H.VT_MSG_START ∧ H.VT_MSG_START < 256)
    (hE : 0 < H.VT_MSG_END ∧ H.VT_MSG_END < 256) :
    send_message H msg = [H.VT_MSG_START] ++ hex_encode msg ++ [H.VT_MSG_END] ∧
      (send_message H msg).length = 2 * msg.length + 2 := by
  have key := send_message_eq H msg hS hE
  refine ⟨key, ?_⟩
  rw [key]
  simp [hex_encode_length]

theorem send_message_framing_witness :
    (0 < sample_header.VT_MSG_START ∧ sample_header.VT_MSG_START < 256) ∧
      (0 < sample_header.VT_MSG_END ∧ sample_header.VT_MSG_END < 256) ∧
      send_message sample_header [192, 0, 171]
        = [sample_header.VT_MSG_START] ++ hex_encode [192, 0, 171]
          ++ [sample_header.VT_MSG_END] :=
  ⟨by decide, by decide,
    (send_message_framing sample_header [192, 0, 171] (by decide) (by decide)).1⟩

/-- C14. Hex encode shape: for every byte sequence of length `n`, the text produced
by the conversion loop of `send_message` has length exactly `2n`, and the
characters at positions `2i` and `2i+1` are digits among `0-9` and uppercase `A-F`
whose values are the high and the low nibble of byte `i`. -/
theorem hex_encode_shape (B : List Nat) (hB : ∀ b ∈ B, b < 256) :
    (hex_encode B).length = 2 * B.length ∧
      ∀ i b, B[i]? = some b →
        ∃ hi lo, (hex_encode B)[2 * i]? = some hi ∧ (hex_encode B)[2 * i + 1]? = some lo ∧
          hexval hi = some (b / 16) ∧ hexval lo = some (b % 16) ∧
          ((48 ≤ hi ∧ hi ≤ 57) ∨ (65 ≤ hi ∧ hi ≤ 70)) ∧
          ((48 ≤ lo ∧ lo ≤ 57) ∨ (65 ≤ lo ∧ lo ≤ 70)) := by
  refine ⟨hex_encode_length B, ?_⟩
  induction B with
  | nil => intro i b h; simp at h
  | cons a bs ih =>
    intro i b h
    have ha : a < 256 := hB a (List.mem_cons_self _ _)
    cases i with
    | zero =>
      simp only [List.getElem?_cons_zero, Option.some.injEq] at h
      subst h
      have h1 : a % 256 / 16 < 16 := by omega
      have h2 : a % 16 < 16 := by omega
      have h3 : a % 256 / 16 = a / 16 := by omega
      refine ⟨hexchar (a % 256 / 16), hexchar (a % 16), by simp [hex_encode_cons],
        by simp [hex_encode_cons], ?_, hexval_hexchar _ h2, hexchar_upper _ h1,
        hexchar_upper _ h2⟩
      rw [hexval_hexchar _ h1, h3]
    | succ i =>
      simp only [List.getElem?_cons_succ] at h
      obtain ⟨hi, lo, e1, e2, rest⟩ :=
        ih (fun x hx => hB x (List.mem_cons_of_mem _ hx)) i b h
      refine ⟨hi, lo, ?_, ?_, rest⟩
      · have : 2 * (i + 1) = 2 * i + 1 + 1 := by omega
        rw [this, hex_encode_cons]
        simpa using e1
      · have : 2 * (i + 1) + 1 = (2 * i + 1) + 1 + 1 := by omega
        rw [this, hex_encode_cons]
        simpa using e2

theorem hex_encode_shape_witness :
    (∀ b ∈ [203, 10, 127], b < 256) ∧
      hex_encode [203, 10, 127] = [67, 66, 48, 65, 55, 70] ∧
      [203, 10, 127][1]? = some 10 ∧
      (hex_encode [203, 10, 127]).length = 2 * [203, 10, 127].length ∧
      ∃ hi lo, (hex_encode [203, 10, 127])[2 * 1]? = some hi ∧
        (hex_encode [203, 10, 127])[2 * 1 + 1]? = some lo ∧
        hexval hi = some (10 / 16) ∧ hexval lo = some (10 % 16) ∧
        ((48 ≤ hi ∧ hi ≤ 57) ∨ (65 ≤ hi ∧ hi ≤ 70)) ∧
        ((48 ≤ lo ∧ lo ≤ 57) ∨ (65 ≤ lo ∧ lo ≤ 70)) :=
  ⟨by decide, by decide, by decide, (hex_encode_shape [203, 10, 127] (by decide)).1,
    (hex_encode_shape [203, 10, 127] (by decide)).2 1 10 (by decide)⟩

theorem feed_of_loop_while (H : Header) (D : PGMFI_Decoder R1 R2 RM RS) (stack : Nat → Nat)
    (n : Nat) (input : List Nat) (s : Pgmfi_Dlc R1 R2 RM RS) (e : LoopExit R1 R2 RM RS)
    (h : loop_while H D stack input s = some e) (he : e.serial1 = []) :
    feed H D stack (n + 1) input s = some e := by
  cases input with
  | nil =>
    rw [feed_nil]
    simpa [loop_while] using h
  | cons a t =>
    have hl : (a :: t).length ≠ 0 := by simp
    simp only [feed, loop, hl, if_false, h, he, feed_nil, Option.map_some', List.append_nil]
    cases e
    simp_all

theorem loop_while_frame (H : Header) (D : PGMFI_Decoder R1 R2 RM RS) (stack : Nat → Nat)
    (w : List Nat) (b : Nat) (s : Pgmfi_Dlc R1 R2 RM RS)
    (hw : ∀ x ∈ w, x < 256 ∧ x ≠ H.VT_MSG_START ∧ x ≠ H.VT_MSG_END)
    (hfit : s.rx_index + w.length ≤ s.rx_buffer.length)
    (hs : b % 256 ≠ H.VT_MSG_START) (he : b % 256 = H.VT_MSG_END) :
    loop_while H D stack (w ++ [b]) s
      = some
          { dlc := (recieve_message D stack (store_bytes s w) (store_bytes s w).rx_buffer
              (s.rx_index + w.length)).1,
            serial1 := [],
            calls := [{ frame := s.rx_buffer.take s.rx_index ++ w,
                        taken := (recieve_message D stack (store_bytes s w)
                          (store_bytes s w).rx_buffer (s.rx_index + w.length)).2 }] } := by
  rw [loop_while_store H D stack w [b] s hw hfit, loop_while_end H D stack b [] _ hs he]
  simp only [loop_while, Option.map_some', store_bytes_rx_index, store_bytes_take w s hfit]

/-- C15. Documented example: in `recieve_message` the 38-character frame text
`CB00000018096F8300602F010301F200067E0B` is converted to exactly the 19 bytes
`CB 00 00 00 18 09 6F 83 00 60 2F 01 03 01 F2 00 06 7E 0B`, and that array is what
the classifier is called with, whatever follows the text in the buffer. -/
theorem example_frame_decodes (D : PGMFI_Decoder R1 R2 RM RS) (stack : Nat → Nat)
    (s : Pgmfi_Dlc R1 R2 RM RS) (rest : List Nat) :
    example_text.length = 38 ∧
      example_message.length = 19 ∧
      hex_to_binary stack (example_text ++ rest) 38 = example_message ∧
      RxExit.payload (recieve_message D stack s (example_text ++ rest) 38).2
        = some example_message := by
  have hb : ∀ b ∈ example_message, b < 256 := by decide
  have hd : hex_to_binary stack (example_text ++ rest) 38 = example_message := by
    rw [example_text_eq]
    exact hex_loop_encode stack example_message hb 0 rest
  refine ⟨by decide, by decide, hd, ?_⟩
  rw [recieve_message_payload D stack s _ 38 (by decide), hd]

end CodecClaims

end DLC

namespace DLC

section WireClaims

variable {R1 R2 RM RS : Type}

/-- C16, evaluated at the failing input.  From every state, a start sentinel
followed by as many non-sentinel bytes as the buffer holds fills it and leaves the
cursor at the capacity; one more non-sentinel byte is then stored at
`rx_buffer[capacity]`, past the end of the array: nothing checks the cursor and the
frame is not dropped. -/
theorem overlong_frame_writes_past_end (H : Header) (D : PGMFI_Decoder R1 R2 RM RS)
    (stack : Nat → Nat) (n : Nat) (s : Pgmfi_Dlc R1 R2 RM RS) (w : List Nat) (b : Nat)
    (hS : H.VT_MSG_START < 256)
    (hw : ∀ x ∈ w, x < 256 ∧ x ≠ H.VT_MSG_START ∧ x ≠ H.VT_MSG_END)
    (hb : b < 256 ∧ b ≠ H.VT_MSG_START ∧ b ≠ H.VT_MSG_END)
    (hlen : w.length = s.rx_buffer.length) :
    (∃ e, feed H D stack (n + 2) (H.VT_MSG_START :: w) s = some e ∧
        e.dlc.rx_index = e.dlc.rx_buffer.length) ∧
      feed H D stack (n + 2) (H.VT_MSG_START :: (w ++ [b])) s = none := by
  have hSm : H.VT_MSG_START % 256 = H.VT_MSG_START := Nat.mod_eq_of_lt hS
  have hbm : b % 256 = b := Nat.mod_eq_of_lt hb.1
  have hfit : ({ s with rx_index := 0 } : Pgmfi_Dlc R1 R2 RM RS).rx_index + w.length
      ≤ ({ s with rx_index := 0 } : Pgmfi_Dlc R1 R2 RM RS).rx_buffer.length := by
    simp [hlen]
  have hidx : (store_bytes ({ s with rx_index := 0 } : Pgmfi_Dlc R1 R2 RM RS) w).rx_index
      = w.length := by
    rw [store_bytes_rx_index]; simp
  have hcap : (store_bytes ({ s with rx_index := 0 } : Pgmfi_Dlc R1 R2 RM RS) w).rx_buffer.length
      = w.length := by
    rw [store_bytes_capacity]; simp [hlen]
  constructor
  · rw [feed_start H D stack (n + 1) _ _ s hSm]
    have h1 := loop_while_store H D stack w [] { s with rx_index := 0 } hw hfit
    rw [List.append_nil] at h1
    refine ⟨_, feed_of_loop_while H D stack n w _ _ (by rw [h1]; rfl) rfl, ?_⟩
    simp only [hidx, hcap]
  · rw [feed_start H D stack (n + 1) _ _ s hSm]
    have hl : (w ++ [b]).length ≠ 0 := by simp
    have h1 := loop_while_store H D stack w [b] { s with rx_index := 0 } hw hfit
    have h2 : loop_while H D stack [b]
        (store_bytes ({ s with rx_index := 0 } : Pgmfi_Dlc R1 R2 RM RS) w) = none := by
      simp [loop_while, hbm, hb.2.1, hb.2.2, hidx, hcap]
    simp only [feed, loop, hl, if_false, h1, h2]

theorem overlong_frame_writes_past_end_witness :
    sample_header.VT_MSG_START < 256 ∧
      (∀ x ∈ [48, 49, 50, 51, 52, 53, 54, 55],
        x < 256 ∧ x ≠ sample_header.VT_MSG_START ∧ x ≠ sample_header.VT_MSG_END) ∧
      [48, 49, 50, 51, 52, 53, 54, 55].length = sample_dlc.rx_buffer.length ∧
      feed sample_header sample_decoder (fun _ => 0) (0 + 2)
        (sample_header.VT_MSG_START :: ([48, 49, 50, 51, 52, 53, 54, 55] ++ [56]))
        sample_dlc = none :=
  ⟨by decide, by decide, by decide,
    (overlong_frame_writes_past_end sample_header sample_decoder (fun _ => 0) 0 sample_dlc
      [48, 49, 50, 51, 52, 53, 54, 55] 56 (by decide) (by decide) (by decide)
      (by decide)).2⟩

/-- C17. No cursor reset on the end sentinel: in a state with accumulated bytes
`w1`, for every sequence `w2` of non-sentinel bytes that fits behind them, feeding
`END`, then `w2`, then `END` with no start sentinel in between calls
`recieve_message` with `w1` at the first `END` and with `w1 ++ w2` at the second
(so with `w2` empty the frame `w1` is delivered twice); an `END` leaves the cursor
and the buffer as they were. -/
theorem end_keeps_cursor (H : Header) (D : PGMFI_Decoder R1 R2 RM RS)
    (stack : Nat → Nat) (n : Nat) (s : Pgmfi_Dlc R1 R2 RM RS) (w1 w2 : List Nat)
    (hE : H.VT_MSG_END < 256) (hSE : H.VT_MSG_START ≠ H.VT_MSG_END)
    (hw1 : s.rx_buffer.take s.rx_index = w1)
    (hw2 : ∀ x ∈ w2, x < 256 ∧ x ≠ H.VT_MSG_START ∧ x ≠ H.VT_MSG_END)
    (hfit : s.rx_index + w2.length ≤ s.rx_buffer.length) :
    (∃ e, feed H D stack (n + 1) (H.VT_MSG_END :: (w2 ++ [H.VT_MSG_END])) s = some e ∧
        e.serial1 = [] ∧
        e.calls.map RxCall.frame = [w1, w1 ++ w2] ∧
        e.dlc.rx_index = s.rx_index + w2.length) ∧
      (∃ e, feed H D stack (n + 1) [H.VT_MSG_END] s = some e ∧
        e.serial1 = [] ∧
        e.calls.map RxCall.frame = [w1] ∧
        e.dlc.rx_index = s.rx_index ∧
        e.dlc.rx_buffer = s.rx_buffer) := by
  have hEm : H.VT_MSG_END % 256 = H.VT_MSG_END := Nat.mod_eq_of_lt hE
  have hEs : H.VT_MSG_END % 256 ≠ H.VT_MSG_START := by rw [hEm]; exact Ne.symm hSE
  have hrx := recieve_message_rx D stack s s.rx_buffer s.rx_index
  constructor
  · have hl : (H.VT_MSG_END :: (w2 ++ [H.VT_MSG_END])).length ≠ 0 := by simp
    have hfit1 : (recieve_message D stack s s.rx_buffer s.rx_index).1.rx_index + w2.length
        ≤ (recieve_message D stack s s.rx_buffer s.rx_index).1.rx_buffer.length := by
      rw [hrx.1, hrx.2]; exact hfit
    have h1 := loop_while_frame H D stack w2 H.VT_MSG_END
      (recieve_message D stack s s.rx_buffer s.rx_index).1 hw2 hfit1 hEs hEm
    simp only [feed, loop, hl, if_false,
      loop_while_end H D stack H.VT_MSG_END (w2 ++ [H.VT_MSG_END]) s hEs hEm, h1,
      Option.map_some', feed_nil, List.append_nil]
    refine ⟨_, rfl, rfl, ?_, ?_⟩
    · simp [hrx.1, hrx.2, hw1]
    · rw [(recieve_message_rx D stack _ _ _).2, store_bytes_rx_index, hrx.2]
  · have h2 : loop_while H D stack [H.VT_MSG_END] s
        = some
            { dlc := (recieve_message D stack s s.rx_buffer s.rx_index).1,
              serial1 := [],
              calls := [{ frame := s.rx_buffer.take s.rx_index,
                          taken := (recieve_message D stack s s.rx_buffer s.rx_index).2 }] } := by
      rw [loop_while_end H D stack H.VT_MSG_END [] s hEs hEm]
      simp only [loop_while, Option.map_some']
    exact ⟨_, feed_of_loop_while H D stack n _ s _ h2 rfl, rfl, by simp [hw1], hrx.2, hrx.1⟩

theorem end_keeps_cursor_witness :
    sample_header.VT_MSG_END < 256 ∧
      sample_header.VT_MSG_START ≠ sample_header.VT_MSG_END ∧
      (store_bytes sample_dlc [48, 52]).rx_buffer.take (store_bytes sample_dlc [48, 52]).rx_index
        = [48, 52] ∧
      (∀ x ∈ [55, 70],
        x < 256 ∧ x ≠ sample_header.VT_MSG_START ∧ x ≠ sample_header.VT_MSG_END) ∧
      ∃ e, feed sample_header sample_decoder (fun _ => 0) (0 + 1)
          (sample_header.VT_MSG_END :: ([55, 70] ++ [sample_header.VT_MSG_END]))
          (store_bytes sample_dlc [48, 52]) = some e ∧
        e.serial1 = [] ∧
        e.calls.map RxCall.frame = [[48, 52], [48, 52] ++ [55, 70]] ∧
        e.dlc.rx_index = (store_bytes sample_dlc [48, 52]).rx_index + [55, 70].length :=
  ⟨by decide, by decide, by decide, by decide,
    (end_keeps_cursor sample_header sample_decoder (fun _ => 0) 0
      (store_bytes sample_dlc [48, 52]) [48, 52] [55, 70] (by decide) (by decide)
      (by decide) (by decide) (by decide)).1⟩

/-- C18, evaluated at the failing input.  The frame texts `" 123"` and `" 1F3"` agree
on positions 0 and 1, yet byte 0 of the array handed to the classifier is `12` for
the first and `1F` for the second: `sscanf` skips the leading space of the group
without counting it in the field width and then reads two characters, the second
of which belongs to the next group. -/
theorem leading_space_reads_next_group :
    [32, 49, 50, 51].take 2 = [32, 49, 70, 51].take 2 ∧
      RxExit.payload
        (recieve_message reject_all (fun _ => 0) sample_dlc [32, 49, 50, 51, 0, 0, 0, 0] 4).2
        = some [0x12, 0x23] ∧
      RxExit.payload
        (recieve_message reject_all (fun _ => 0) sample_dlc [32, 49, 70, 51, 0, 0, 0, 0] 4).2
        = some [0x1F, 0xF3] := by
  decide

/-- C19, as stated, fails.  The last byte of the documented example is `0x0B`, and
`calculate_checksum` of the doc comment does not return `0x0B` for it. -/
theorem example_checksum_mismatch :
    example_message.getLast? = some 0x0B ∧ calculate_checksum example_message ≠ 0x0B := by
  decide

/-- C19, amended.  For the documented example message `calculate_checksum` of the
doc comment returns `0xF0`, the exclusive or of its first eighteen bytes, while its
last byte is `0x0B`; `recieve_message` makes no checksum comparison and hands the
example to the classifier all the same. -/
theorem example_checksum_value (D : PGMFI_Decoder R1 R2 RM RS) (stack : Nat → Nat)
    (s : Pgmfi_Dlc R1 R2 RM RS) (rest : List Nat) :
    calculate_checksum example_message = 0xF0 ∧
      example_message.getLast? = some 0x0B ∧
      RxExit.classifier_called (recieve_message D stack s (example_text ++ rest) 38).2
        = true := by
  refine ⟨by decide, by decide, ?_⟩
  rcases recieve_message_cases D stack s (example_text ++ rest) 38 with c | c | ⟨t, c⟩ | ⟨t, c⟩
  · exact absurd c.1 (by decide)
  · rw [c.2.2]; rfl
  · rw [c.2.2.2]; rfl
  · rw [c.2.2.2]; rfl

/-- C20. Query wire round trip: for each query type `T`, the bytes that `query(T)`
writes, fed back through the reassembler from any state by calling `loop()` until
the source is empty, make exactly one call of `recieve_message`, with a frame of
length 8, the hex text of the payload, and the array it hands to the classifier is
the four-byte payload built by `query(T)`.  The sentinels are taken to be distinct
non-zero byte values that are not hexadecimal digits, and the buffer to hold at
least 8 bytes. -/
theorem query_wire_roundtrip (H : Header) (D : PGMFI_Decoder R1 R2 RM RS)
    (stack : Nat → Nat) (n : Nat) (s : Pgmfi_Dlc R1 R2 RM RS) (T : QueryType)
    (hS : 0 < H.VT_MSG_START ∧ H.VT_MSG_START < 256)
    (hE : 0 < H.VT_MSG_END ∧ H.VT_MSG_END < 256)
    (hSE : H.VT_MSG_START ≠ H.VT_MSG_END)
    (hSh : hexval H.VT_MSG_START = none) (hEh : hexval H.VT_MSG_END = none)
    (hcap : 8 ≤ s.rx_buffer.length) :
    ∃ e c, feed H D stack (n + 2) (query H T) s = some e ∧
      e.serial1 = [] ∧
      e.calls = [c] ∧
      c.frame.length = 8 ∧
      c.frame = hex_encode (query_msg H T) ∧
      RxExit.payload c.taken = some (query_msg H T) := by
  have hSm : H.VT_MSG_START % 256 = H.VT_MSG_START := Nat.mod_eq_of_lt hS.2
  have hEm : H.VT_MSG_END % 256 = H.VT_MSG_END := Nat.mod_eq_of_lt hE.2
  have hEs : H.VT_MSG_END % 256 ≠ H.VT_MSG_START := by rw [hEm]; exact Ne.symm hSE
  have hlen : (hex_encode (query_msg H T)).length = 8 := by
    rw [hex_encode_length]; rfl
  have hw := hex_encode_not_sentinel H (query_msg H T) hSh hEh
  have hfit : ({ s with rx_index := 0 } : Pgmfi_Dlc R1 R2 RM RS).rx_index
      + (hex_encode (query_msg H T)).length
      ≤ ({ s with rx_index := 0 } : Pgmfi_Dlc R1 R2 RM RS).rx_buffer.length := by
    rw [hlen]; simpa using hcap
  have hq : ∀ b ∈ query_msg H T, b < 256 := by
    intro b hb
    simp only [query_msg, List.mem_cons, List.not_mem_nil, or_false] at hb
    rcases hb with h | h | h | h
    · rw [h]; exact Nat.mod_lt _ (by decide)
    · rw [h]; exact Nat.mod_lt _ (by decide)
    · rw [h]; decide
    · rw [h]; cases T <;> decide
  have ht := store_bytes_take (hex_encode (query_msg H T)) { s with rx_index := 0 } hfit
  simp only [Nat.zero_add, List.take_zero, List.nil_append] at ht
  have hbuf : (store_bytes ({ s with rx_index := 0 } : Pgmfi_Dlc R1 R2 RM RS)
        (hex_encode (query_msg H T))).rx_buffer
      = hex_encode (query_msg H T)
        ++ (store_bytes ({ s with rx_index := 0 } : Pgmfi_Dlc R1 R2 RM RS)
            (hex_encode (query_msg H T))).rx_buffer.drop
              (hex_encode (query_msg H T)).length := by
    conv_lhs => rw [← List.take_append_drop (hex_encode (query_msg H T)).length
      (store_bytes ({ s with rx_index := 0 } : Pgmfi_Dlc R1 R2 RM RS)
        (hex_encode (query_msg H T))).rx_buffer]
    rw [ht]
  have hdec : hex_to_binary stack
      (store_bytes ({ s with rx_index := 0 } : Pgmfi_Dlc R1 R2 RM RS)
        (hex_encode (query_msg H T))).rx_buffer (hex_encode (query_msg H T)).length
      = query_msg H T := by
    rw [hbuf]
    unfold hex_to_binary
    rw [hex_encode_length, Nat.mul_div_cancel_left _ (by decide : 0 < 2)]
    exact hex_loop_encode stack (query_msg H T) hq 0 _
  have hquery : query H T
      = H.VT_MSG_START :: (hex_encode (query_msg H T) ++ [H.VT_MSG_END]) := by
    unfold query
    rw [send_message_eq H _ hS hE]
    simp
  rw [hquery, feed_start H D stack (n + 1) _ _ s hSm,
    feed_frame H D stack n _ _ { s with rx_index := 0 } hw hfit hEs hEm]
  refine ⟨_, _, rfl, rfl, rfl, ?_, ?_, ?_⟩
  · simpa using hlen
  · simp
  · simp only [Nat.zero_add]
    rw [recieve_message_payload D stack _ _ _ (by rw [hlen]), hdec]

theorem query_wire_roundtrip_witness :
    (0 < sample_query_header.VT_MSG_START ∧ sample_query_header.VT_MSG_START < 256) ∧
      (0 < sample_query_header.VT_MSG_END ∧ sample_query_header.VT_MSG_END < 256) ∧
      sample_query_header.VT_MSG_START ≠ sample_query_header.VT_MSG_END ∧
      hexval sample_query_header.VT_MSG_START = none ∧
      hexval sample_query_header.VT_MSG_END = none ∧
      8 ≤ sample_pending.rx_buffer.length ∧
      query sample_query_header QueryType.T_ECU_Info2 = [2, 67, 48, 67, 67, 48, 48, 48, 50, 3] ∧
      ∃ e c, feed sample_query_header sample_decoder (fun _ => 0) (0 + 2)
          (query sample_query_header QueryType.T_ECU_Info2) sample_pending = some e ∧
        e.serial1 = [] ∧
        e.calls = [c] ∧
        c.frame.length = 8 ∧
        c.frame = hex_encode (query_msg sample_query_header QueryType.T_ECU_Info2) ∧
        RxExit.payload c.taken = some (query_msg sample_query_header QueryType.T_ECU_Info2) :=
  ⟨by decide, by decide, by decide, by decide, by decide, by decide, by decide,
    query_wire_roundtrip sample_query_header sample_decoder (fun _ => 0) 0 sample_pending
      QueryType.T_ECU_Info2 (by decide) (by decide) (by decide) (by decide) (by decide)
      (by decide)⟩

end WireClaims

end DLC
